import Mathlib

/-!
Verification of the hedera-sdk-go query-execution core against its
specification.  The Go sources are shallowly embedded: Go `int64`
quantities (tinybars, `time.Duration` nanoseconds) become `Int`, Go
slices become `List`, Go `nil`-able pointers become `Option`, and Go
functions returning `(T, error)` become `Except`-valued or
`T × Option e`-valued Lean functions.
-/

namespace HederaSdk

/-- Tinybar-denominated amount; Go's `Hbar` struct stores `tinybar int64`. -/
structure Hbar where
  tinybar : Int
deriving DecidableEq, Repr

/-- `HbarFromTinybar` from the Go SDK: wraps a tinybar count. -/
def HbarFromTinybar (t : Int) : Hbar := ⟨t⟩

/-- A consensus-node account identifier (opaque here). -/
abbrev AccountID := Nat

/-- The tail of `AccountInfoQuery.GetCost` (account_info_query.go lines
132-137): the node's quoted fee is read from the response header and any
quote below 25 tinybar is replaced by 25. -/
def accountInfoGetCostResult (cost : Int) : Hbar :=
  if cost < 25 then HbarFromTinybar 25 else HbarFromTinybar cost

/-- Errors that `AccountInfoQuery.Execute` can surface from its
payment-authorization phase. -/
inductive ExecuteError where
  | probeFailed
  | maxQueryPaymentExceeded (queryCost : Hbar) (maxQueryPayment : Hbar)
deriving DecidableEq, Repr

/-- The payment-authorization phase of `AccountInfoQuery.Execute`
(account_info_query.go lines 184-208): if an explicit `queryPayment` was
set (nonzero) it is used as-is; otherwise the ceiling is the per-query
`maxQueryPayment` when set, else the client-wide default, the cost probe
result is compared against that ceiling, and on success the probed cost
itself becomes the payment amount. -/
def accountInfoQueryAuthorize (queryPayment maxQueryPayment clientMaxQueryPayment : Hbar)
    (probe : Except Unit Hbar) : Except ExecuteError Hbar :=
  if queryPayment.tinybar ≠ 0 then
    .ok queryPayment
  else
    let cost := if maxQueryPayment.tinybar = 0 then clientMaxQueryPayment else maxQueryPayment
    match probe with
    | .error _ => .error .probeFailed
    | .ok actualCost =>
      if cost.tinybar < actualCost.tinybar then
        .error (.maxQueryPaymentExceeded actualCost cost)
      else
        .ok actualCost

/-- Modelled from the spec: `_QueryGeneratePayments` (query.go, not under
src/) signs one payment transaction per candidate node, each carrying the
authorized amount (spec section 4.2: the attached payment amount equals the
authorized cost). -/
def queryGeneratePayments (nodes : List AccountID) (amount : Hbar) : List (AccountID × Hbar) :=
  nodes.map (fun n => (n, amount))

/-- `AccountInfoQuery.Execute` up to and including payment generation
(account_info_query.go lines 184-216): authorization followed by
`_QueryGeneratePayments` with the resulting amount; errors are returned
before any payment is generated. -/
def accountInfoQueryExecutePayments (queryPayment maxQueryPayment clientMaxQueryPayment : Hbar)
    (probe : Except Unit Hbar) (nodes : List AccountID) :
    Except ExecuteError (List (AccountID × Hbar)) :=
  match accountInfoQueryAuthorize queryPayment maxQueryPayment clientMaxQueryPayment probe with
  | .error e => .error e
  | .ok cost => .ok (queryGeneratePayments nodes cost)

/-- A token relationship as decoded from the mirror node JSON (opaque
payload; only identity matters to the claims). -/
structure TokenRelationship where
  tokenId : Nat
deriving DecidableEq, Repr

/-- The part of `ContractInfo` the enrichment step touches: the
consensus-derived fields (represented by `contractID` and `balance`) plus
the mirror-sourced `TokenRelationships` slice. -/
structure ContractInfo where
  contractID : Nat
  balance : Int
  tokenRelationships : List TokenRelationship
deriving DecidableEq, Repr

/-- Errors of the mirror-node gateway and of the enrichment step. -/
inductive MirrorError where
  | transport
  | httpStatus (code : Nat)
  | tokenDecode (tag : Nat)
  | consensus
deriving DecidableEq, Repr

/-- The decoded JSON body of a mirror-node response, restricted to what
`fetchContractInfoTokenRelationships` reads: the `tokens` field, which is
either absent / not a list (`none`) or a list of token entries, each of
which `TokenRelationshipFromJson` either decodes or rejects. -/
abbrev ResponseMap := Option (List (Except MirrorError TokenRelationship))

/-- `makeGetRequest` (mirror_node_gateway.go lines 75-101), with the
HTTP round trip deconstructed into its observables: `httpGetErr` is the
outcome of `http.Get`, `statusCode` the response status, and `decoded` the
outcome of JSON-decoding the body.  The code returns the transport error
if any, then errors when the status code is at least 400, then returns the
decode outcome. -/
def makeGetRequest (httpGetErr : Option MirrorError) (statusCode : Nat)
    (decoded : Except MirrorError ResponseMap) : Except MirrorError ResponseMap :=
  match httpGetErr with
  | some e => .error e
  | none =>
    if 400 ≤ statusCode then .error (.httpStatus statusCode)
    else decoded

/-- `LOCAL_NETWORK` constant (mirror_node_gateway.go line 31). -/
def LOCAL_NETWORK : String := "127.0.0.1"

/-- Go's `strings.Contains(s, sub)`: whether `sub` occurs as a contiguous
substring of `s`. -/
def stringsContains (s sub : String) : Bool := decide (sub.toList <:+: s.toList)

/-- The sleep `makeGetRequest` performs before issuing the HTTP request
(mirror_node_gateway.go lines 78-80), in nanoseconds: `4 * time.Second`
when the URL contains `LOCAL_NETWORK`, nothing otherwise. -/
def makeGetRequestWaitNanos (url : String) : Int :=
  if stringsContains url LOCAL_NETWORK then 4 * 1000000000 else 0

/-- The enrichment window applied to local deployments: the fixed
`4 * time.Second` delay of mirror_node_gateway.go line 79. -/
def enrichmentWindowNanos : Int := 4 * 1000000000

/-- `API_VERSION` constant (mirror_node_gateway.go line 32). -/
def API_VERSION : String := "/api/v1"

/-- `PORT` constant (mirror_node_gateway.go line 33). -/
def PORT : String := ":5551"

/-- Go's `strings.HasPrefix(s, pre)`. -/
def stringsHasPrefix (s pre : String) : Bool := pre.toList.isPrefixOf s.toList

/-- `fetchMirrorNodeUrlFromClient` (mirror_node_gateway.go lines 65-72):
derives the sidecar base URL from the client's primary mirror-network
entry (`client.GetMirrorNetwork()[0]`, passed here as `primary`). -/
def fetchMirrorNodeUrlFromClient (primary : String) : String :=
  if stringsHasPrefix primary LOCAL_NETWORK then
    "http://" ++ LOCAL_NETWORK ++ PORT ++ API_VERSION
  else
    "https://" ++ primary ++ API_VERSION

/-- The append loop inside `fetchContractInfoTokenRelationships`
(contract_info_query.go lines 110-118): decode each token entry in order,
appending successes to `info.tokenRelationships`, and return the first
decode error together with the partially updated `info`. -/
def appendDecodedTokens (info : ContractInfo) :
    List (Except MirrorError TokenRelationship) → ContractInfo × Option MirrorError
  | [] => (info, none)
  | .error e :: _ => (info, some e)
  | .ok t :: rest =>
    appendDecodedTokens { info with tokenRelationships := info.tokenRelationships ++ [t] } rest

/-- `fetchContractInfoTokenRelationships` (contract_info_query.go lines
102-120): on a gateway error, return it with `info` untouched; otherwise
reset `info.TokenRelationships` to the empty slice and, when the `tokens`
field is a list, decode and append its entries. -/
def fetchContractInfoTokenRelationships (resp : Except MirrorError ResponseMap)
    (info : ContractInfo) : ContractInfo × Option MirrorError :=
  match resp with
  | .error e => (info, some e)
  | .ok tokensField =>
    let info2 := { info with tokenRelationships := [] }
    match tokensField with
    | none => (info2, none)
    | some tokens => appendDecodedTokens info2 tokens

/-- `ContractInfoQuery.Execute` after the consensus round trip
(contract_info_query.go lines 72-90): on a consensus failure the zero
value and the error are returned; otherwise the decoded `info` is enriched
and returned together with the enrichment error, if any. -/
def contractInfoQueryExecute (consensus : Except MirrorError ContractInfo)
    (resp : Except MirrorError ResponseMap) : ContractInfo × Option MirrorError :=
  match consensus with
  | .error e => (⟨0, 0, []⟩, some e)
  | .ok info => fetchContractInfoTokenRelationships resp info

/-- Backoff-relevant fields of the embedded `Query` struct: Go holds them
as `*time.Duration`, so an unset field is `none`; durations are nanosecond
counts. -/
structure BackoffState where
  minBackoff : Option Int
  maxBackoff : Option Int
deriving DecidableEq, Repr

/-- Outcome of a backoff setter: Go either panics with a message, faults
dereferencing a nil duration pointer, or updates the query. -/
inductive SetBackoffOutcome where
  | panicked (msg : String)
  | nilDeref
  | ok (st : BackoffState)
deriving DecidableEq, Repr

/-- `AccountInfoQuery.SetMaxBackoff` (account_info_query.go lines
245-253): panics on a negative argument, then evaluates
`query.minBackoff.Nanoseconds()` — a nil-pointer fault when `minBackoff`
is unset — and panics when the argument is below it; otherwise stores the
new maximum. -/
def setMaxBackoff (st : BackoffState) (maxB : Int) : SetBackoffOutcome :=
  if maxB < 0 then .panicked "maxBackoff must be a positive duration"
  else
    match st.minBackoff with
    | none => .nilDeref
    | some mn =>
      if maxB < mn then .panicked "maxBackoff must be greater than or equal to minBackoff"
      else .ok { st with maxBackoff := some maxB }

/-- `AccountInfoQuery.SetMinBackoff` (account_info_query.go lines
263-271): panics on a negative argument, then evaluates
`query.maxBackoff.Nanoseconds()` — a nil-pointer fault when `maxBackoff`
is unset — and panics when it is below the argument; otherwise stores the
new minimum. -/
def setMinBackoff (st : BackoffState) (minB : Int) : SetBackoffOutcome :=
  if minB < 0 then .panicked "minBackoff must be a positive duration"
  else
    match st.maxBackoff with
    | none => .nilDeref
    | some mx =>
      if mx < minB then .panicked "minBackoff must be less than or equal to maxBackoff"
      else .ok { st with minBackoff := some minB }

/-- Modelled from the spec: the backoff sequence of the retry loop in
`_Execute` (executable.go, not under src/).  Spec section 4.3: the next
backoff is `min(maxBackoff, currentBackoff * 2)` starting from
`minBackoff`. -/
def backoffSeq (minB maxB : Int) : Nat → Int
  | 0 => minB
  | n + 1 => min maxB (2 * backoffSeq minB maxB n)

/-- Lowercase hex digit for a nibble, as produced by Go's
`hex.EncodeToString`. -/
def hexDigitChar (n : Nat) : Char :=
  if n < 10 then Char.ofNat (48 + n) else Char.ofNat (87 + n)

/-- Hex encoding of one byte: high nibble then low nibble. -/
def hexEncodeByte (b : Nat) : List Char :=
  [hexDigitChar (b / 16), hexDigitChar (b % 16)]

/-- Go's `hex.EncodeToString` over a byte slice (bytes as `Nat < 256`). -/
def hexEncode : List Nat → List Char
  | [] => []
  | b :: bs => hexEncodeByte b ++ hexEncode bs

/-- Value of a hex digit character, accepting both cases, as Go's
`hex.DecodeString` does; `none` on a non-hex character. -/
def hexDigitVal (c : Char) : Option Nat :=
  if 48 ≤ c.toNat ∧ c.toNat ≤ 57 then some (c.toNat - 48)
  else if 97 ≤ c.toNat ∧ c.toNat ≤ 102 then some (c.toNat - 87)
  else if 65 ≤ c.toNat ∧ c.toNat ≤ 70 then some (c.toNat - 55)
  else none

/-- Go's `hex.DecodeString`: fails on odd length or a non-hex character. -/
def hexDecode : List Char → Option (List Nat)
  | [] => some []
  | [_] => none
  | c1 :: c2 :: rest =>
    match hexDigitVal c1, hexDigitVal c2, hexDecode rest with
    | some hi, some lo, some tl => some ((16 * hi + lo) :: tl)
    | _, _, _ => none

/-- ASCII lowering of one character (the effect of Go's `strings.ToLower`
on the ASCII key strings at hand). -/
def toLowerChar (c : Char) : Char :=
  if 65 ≤ c.toNat ∧ c.toNat ≤ 90 then Char.ofNat (c.toNat + 32) else c

/-- Go's `strings.ToLower` on an ASCII string, as a character list. -/
def strToLower (s : List Char) : List Char := s.map toLowerChar

/-- Go's `strings.TrimPrefix`: drop `pre` from the front of `s` when it is
a prefix, otherwise return `s` unchanged. -/
def trimPrefixOf (s pre : List Char) : List Char :=
  if pre.isPrefixOf s then s.drop pre.length else s

/-- `ed25519PrivateKeyPrefix` constant (part_000 line 23). -/
def ed25519PrivateKeyPrefixChars : List Char :=
  "302e020100300506032b657004220420".toList

/-- `ed25519PubKeyPrefix` constant (part_000 line 24). -/
def ed25519PubKeyPrefixChars : List Char :=
  "302a300506032b6570032100".toList

/-- An ed25519 private key (part_000 lines 63-67): 64 key bytes and an
optional chain code (a Go `nil` slice is `none`). -/
structure PrivateKey where
  keyData : List Nat
  chainCode : Option (List Nat)
deriving DecidableEq, Repr

/-- An ed25519 public key (part_000 lines 69-72). -/
structure PublicKey where
  keyData : List Nat
deriving DecidableEq, Repr

/-- Go's `ed25519.NewKeyFromSeed`: the 64-byte private key whose first 32
bytes are the seed itself and whose last 32 bytes are the public key
derived from it; the scalar-multiplication derivation is abstracted as the
function argument `derivePub`. -/
def ed25519NewKeyFromSeed (derivePub : List Nat → List Nat) (seed : List Nat) : List Nat :=
  seed ++ derivePub seed

/-- `PrivateKeyFromBytes` (part_000 lines 87-96): accepts 32 or 64 bytes
and rebuilds the key from the first 32 as seed; the chain code is left
unset. -/
def PrivateKeyFromBytes (derivePub : List Nat → List Nat) (bytes : List Nat) :
    Except String PrivateKey :=
  if bytes.length ≠ 32 ∧ bytes.length ≠ 64 then
    .error "invalid private key length"
  else
    .ok { keyData := ed25519NewKeyFromSeed derivePub (bytes.take 32), chainCode := none }

/-- `PrivateKey.String` (part_000 lines 271-273): the DER prefix followed
by the hex encoding of the first 32 key bytes. -/
def privateKeyString (sk : PrivateKey) : List Char :=
  ed25519PrivateKeyPrefixChars ++ hexEncode (sk.keyData.take 32)

/-- `PrivateKeyFromString` (part_000 lines 136-148): length must be 64, 96
or 128; the lowered string is stripped of the DER prefix, hex-decoded and
passed to `PrivateKeyFromBytes`. -/
def PrivateKeyFromString (derivePub : List Nat → List Nat) (s : List Char) :
    Except String PrivateKey :=
  if s.length ≠ 64 ∧ s.length ≠ 96 ∧ s.length ≠ 128 then
    .error "invalid private key string"
  else
    match hexDecode (trimPrefixOf (strToLower s) ed25519PrivateKeyPrefixChars) with
    | none => .error "invalid hex"
    | some bytes => PrivateKeyFromBytes derivePub bytes

/-- `PublicKeyFromBytes` (part_000 lines 231-239): exactly 32 bytes. -/
def PublicKeyFromBytes (bytes : List Nat) : Except String PublicKey :=
  if bytes.length ≠ 32 then .error "invalid public key length"
  else .ok { keyData := bytes }

/-- `PublicKey.String` (part_000 lines 276-278): the DER prefix followed
by the hex encoding of the key bytes. -/
def publicKeyString (pk : PublicKey) : List Char :=
  ed25519PubKeyPrefixChars ++ hexEncode pk.keyData

/-- `PublicKeyFromString` (part_000 lines 215-228): length must be 64 or
88; the lowered string is stripped of the DER prefix and hex-decoded, and
the raw bytes become the key. -/
def PublicKeyFromString (s : List Char) : Except String PublicKey :=
  if s.length ≠ 64 ∧ s.length ≠ 88 then
    .error "invalid public key string"
  else
    match hexDecode (trimPrefixOf (strToLower s) ed25519PubKeyPrefixChars) with
    | none => .error "invalid hex"
    | some bytes => .ok { keyData := bytes }

/-! Helper lemmas shared by the claim theorems. -/

theorem hexDigitVal_hexDigitChar : ∀ n, n < 16 → hexDigitVal (hexDigitChar n) = some n := by
  decide

theorem toLowerChar_hexDigitChar : ∀ n, n < 16 → toLowerChar (hexDigitChar n) = hexDigitChar n := by
  decide

theorem hexDecode_hexEncode (bs : List Nat) (h : ∀ b ∈ bs, b < 256) :
    hexDecode (hexEncode bs) = some bs := by
  induction bs with
  | nil => rfl
  | cons b bs ih =>
    have hb : b < 256 := h b (by simp)
    have h1 : b / 16 < 16 := by omega
    have h2 : b % 16 < 16 := by omega
    have hrep : 16 * (b / 16) + b % 16 = b := by omega
    simp only [hexEncode, hexEncodeByte, List.cons_append, List.nil_append, List.append_eq,
      hexDecode, hexDigitVal_hexDigitChar _ h1, hexDigitVal_hexDigitChar _ h2,
      ih (fun x hx => h x (by simp [hx])), hrep]

theorem map_toLowerChar_hexEncode (bs : List Nat) (h : ∀ b ∈ bs, b < 256) :
    (hexEncode bs).map toLowerChar = hexEncode bs := by
  induction bs with
  | nil => rfl
  | cons b bs ih =>
    have hb : b < 256 := h b (by simp)
    simp only [hexEncode, hexEncodeByte, List.map_append, List.map_cons, List.map_nil,
      toLowerChar_hexDigitChar _ (by omega : b / 16 < 16),
      toLowerChar_hexDigitChar _ (by omega : b % 16 < 16),
      ih (fun x hx => h x (by simp [hx]))]

theorem hexEncode_length (bs : List Nat) : (hexEncode bs).length = 2 * bs.length := by
  induction bs with
  | nil => rfl
  | cons b bs ih =>
    simp [hexEncode, hexEncodeByte, ih]
    omega

theorem isPrefixOf_append_self (pre rest : List Char) : pre.isPrefixOf (pre ++ rest) = true := by
  induction pre with
  | nil => simp
  | cons c cs ih => simp [List.isPrefixOf_cons₂, ih]

theorem trimPrefixOf_append (pre rest : List Char) : trimPrefixOf (pre ++ rest) pre = rest := by
  simp [trimPrefixOf, isPrefixOf_append_self, List.drop_left]

theorem strToLower_privPrefixChars :
    strToLower ed25519PrivateKeyPrefixChars = ed25519PrivateKeyPrefixChars := by
  decide

theorem strToLower_pubPrefixChars :
    strToLower ed25519PubKeyPrefixChars = ed25519PubKeyPrefixChars := by
  decide

theorem strToLower_append (a b : List Char) :
    strToLower (a ++ b) = strToLower a ++ strToLower b := by
  simp [strToLower]

theorem privPrefixChars_length : ed25519PrivateKeyPrefixChars.length = 32 := by
  decide

theorem pubPrefixChars_length : ed25519PubKeyPrefixChars.length = 24 := by
  decide

theorem appendDecodedTokens_ok_err (info : ContractInfo)
    (pre : List TokenRelationship) (e : MirrorError)
    (rest : List (Except MirrorError TokenRelationship)) :
    appendDecodedTokens info (pre.map Except.ok ++ .error e :: rest) =
      ({ info with tokenRelationships := info.tokenRelationships ++ pre }, some e) := by
  induction pre generalizing info with
  | nil => simp [appendDecodedTokens]
  | cons t ts ih =>
    simp only [List.map_cons, List.cons_append]
    rw [show appendDecodedTokens info
          (Except.ok t :: (List.map Except.ok ts ++ Except.error e :: rest)) =
        appendDecodedTokens
          { info with tokenRelationships := info.tokenRelationships ++ [t] }
          (List.map Except.ok ts ++ Except.error e :: rest) from rfl, ih]
    simp

end HederaSdk

namespace HederaSdk

/-! Claim theorems. -/

/-- Claim C2: for every successful cost probe, the value `GetCost` returns
is the node's quote with any value below the 25-tinybar floor replaced by
the floor, i.e. `max(quote, 25)` tinybar. -/
theorem getCost_returns_max_quote_floor (cost : Int) :
    accountInfoGetCostResult cost = HbarFromTinybar (max cost 25) := by
  unfold accountInfoGetCostResult HbarFromTinybar
  split <;> (congr 1; omega)

/-- Claim C1: for a fee-bearing query executed without an explicit payment
amount, with effective ceiling `C` (per-query override, else the
client-wide default) and cost-probe quote `Q`: if `Q > C`, `Execute`
returns `ErrMaxQueryPaymentExceeded` carrying both values and generates no
payments; if `Q ≤ C`, every generated payment transaction carries amount
`Q`. -/
theorem execute_payment_authorization (qp mqp cmqp q : Hbar) (nodes : List AccountID)
    (hqp : qp.tinybar = 0) :
    ((if mqp.tinybar = 0 then cmqp else mqp).tinybar < q.tinybar →
       accountInfoQueryExecutePayments qp mqp cmqp (.ok q) nodes =
         .error (.maxQueryPaymentExceeded q (if mqp.tinybar = 0 then cmqp else mqp))) ∧
    (q.tinybar ≤ (if mqp.tinybar = 0 then cmqp else mqp).tinybar →
       accountInfoQueryExecutePayments qp mqp cmqp (.ok q) nodes =
         .ok (nodes.map (fun n => (n, q)))) := by
  constructor <;> intro h
  · simp [accountInfoQueryExecutePayments, accountInfoQueryAuthorize,
      queryGeneratePayments, hqp, if_pos h]
  · simp [accountInfoQueryExecutePayments, accountInfoQueryAuthorize,
      queryGeneratePayments, hqp, if_neg (not_lt.mpr h)]

/-- Witness for claim C1 at a concrete input: quote 100 over ceiling 50
fails with both values attached; quote 40 under ceiling 50 pays 40. -/
theorem execute_payment_authorization_witness :
    (Hbar.mk 0).tinybar = 0 ∧
    accountInfoQueryExecutePayments ⟨0⟩ ⟨0⟩ ⟨50⟩ (.ok ⟨100⟩) [3] =
      .error (.maxQueryPaymentExceeded ⟨100⟩ ⟨50⟩) ∧
    accountInfoQueryExecutePayments ⟨0⟩ ⟨0⟩ ⟨50⟩ (.ok ⟨40⟩) [3] = .ok [(3, ⟨40⟩)] := by
  refine ⟨rfl, ?_, ?_⟩
  · exact (execute_payment_authorization ⟨0⟩ ⟨0⟩ ⟨50⟩ ⟨100⟩ [3] rfl).1 (by decide)
  · exact (execute_payment_authorization ⟨0⟩ ⟨0⟩ ⟨50⟩ ⟨40⟩ [3] rfl).2 (by decide)

/-- Claim C3: within one Execute/GetCost call the backoff sequence is
non-decreasing, never exceeds the configured maximum and never drops below
the configured minimum; and a successful `SetMaxBackoff` / `SetMinBackoff`
leaves `minBackoff ≤ maxBackoff`. -/
theorem backoff_invariants (minB maxB : Int) (h0 : 0 ≤ minB) (hle : minB ≤ maxB) :
    (∀ i, minB ≤ backoffSeq minB maxB i ∧
          backoffSeq minB maxB i ≤ maxB ∧
          backoffSeq minB maxB i ≤ backoffSeq minB maxB (i + 1)) ∧
    (∀ st mn v st', st.minBackoff = some mn → setMaxBackoff st v = .ok st' →
       st'.minBackoff = some mn ∧ st'.maxBackoff = some v ∧ mn ≤ v) ∧
    (∀ st mx v st', st.maxBackoff = some mx → setMinBackoff st v = .ok st' →
       st'.minBackoff = some v ∧ st'.maxBackoff = some mx ∧ v ≤ mx) := by
  refine ⟨?_, ?_, ?_⟩
  · have key : ∀ i, minB ≤ backoffSeq minB maxB i ∧ backoffSeq minB maxB i ≤ maxB := by
      intro i
      induction i with
      | zero => exact ⟨le_refl _, hle⟩
      | succ n ih =>
        simp only [backoffSeq]
        omega
    intro i
    refine ⟨(key i).1, (key i).2, ?_⟩
    have h1 := key i
    simp only [backoffSeq]
    omega
  · intro st mn v st' hmn hset
    unfold setMaxBackoff at hset
    rw [hmn] at hset
    by_cases hv : v < 0
    · simp [hv] at hset
    · by_cases hvm : v < mn
      · simp [hv, hvm] at hset
      · simp [hv, hvm] at hset
        subst hset
        exact ⟨by simp [hmn], by simp, by omega⟩
  · intro st mx v st' hmx hset
    unfold setMinBackoff at hset
    rw [hmx] at hset
    by_cases hv : v < 0
    · simp [hv] at hset
    · by_cases hvm : mx < v
      · simp [hv, hvm] at hset
      · simp [hv, hvm] at hset
        subst hset
        exact ⟨by simp, by simp [hmx], by omega⟩

/-- Witness for claim C3 at minBackoff 1, maxBackoff 8: the first backoff
step does not decrease, and `SetMinBackoff 2` on a query with both bounds
set keeps the minimum below the maximum. -/
theorem backoff_invariants_witness :
    (0 : Int) ≤ 1 ∧ (1 : Int) ≤ 8 ∧
    backoffSeq 1 8 0 ≤ backoffSeq 1 8 1 ∧
    BackoffState.minBackoff ⟨some 2, some 8⟩ = some 2 ∧
    BackoffState.maxBackoff ⟨some 2, some 8⟩ = some 8 ∧
    (2 : Int) ≤ 8 := by
  refine ⟨by decide, by decide, ((backoff_invariants 1 8 (by decide) (by decide)).1 0).2.2, ?_⟩
  exact ((backoff_invariants 1 8 (by decide) (by decide)).2.2 ⟨some 1, some 8⟩ 8 2
    ⟨some 2, some 8⟩ rfl rfl)

/-- Claim C10: calling `SetMinBackoff` with any non-negative argument on a
query whose `maxBackoff` pointer was never set dereferences that nil
pointer and faults. -/
theorem setMinBackoff_nil_maxBackoff (st : BackoffState) (minB : Int)
    (hmax : st.maxBackoff = none) (h0 : 0 ≤ minB) :
    setMinBackoff st minB = .nilDeref := by
  unfold setMinBackoff
  rw [hmax, if_neg (by omega)]

/-- Witness for claim C10: a fresh query state with neither bound set
faults on `SetMinBackoff 0`. -/
theorem setMinBackoff_nil_maxBackoff_witness :
    BackoffState.maxBackoff ⟨none, none⟩ = none ∧ (0 : Int) ≤ 0 ∧
    setMinBackoff ⟨none, none⟩ 0 = .nilDeref :=
  ⟨rfl, by decide, setMinBackoff_nil_maxBackoff ⟨none, none⟩ 0 rfl (by decide)⟩

/-- Counterexample to claim C4 as stated: with a successful consensus
answer and a sidecar response whose first token decodes but whose second
does not, `Execute` returns a non-nil error, yet the returned answer is
not the unenriched consensus answer — it carries the partially decoded
token list. -/
theorem partial_enrichment_counterexample :
    (contractInfoQueryExecute (.ok ⟨7, 100, []⟩)
        (.ok (some [.ok ⟨5⟩, .error (.tokenDecode 0)]))).2 = some (.tokenDecode 0) ∧
    (contractInfoQueryExecute (.ok ⟨7, 100, []⟩)
        (.ok (some [.ok ⟨5⟩, .error (.tokenDecode 0)]))).1 ≠ (⟨7, 100, []⟩ : ContractInfo) := by
  constructor
  · rfl
  · decide

/-- Claim C4 (amended): when the sidecar fetch itself fails, `Execute`
returns the fetch error together with the unenriched consensus answer;
when a token entry fails to decode, it returns the decode error together
with the consensus answer whose consensus-derived fields are unchanged and
whose supplemental collection holds exactly the tokens decoded before the
failure. -/
theorem partial_enrichment_returns_answer (info : ContractInfo) :
    (∀ e, contractInfoQueryExecute (.ok info) (.error e) = (info, some e)) ∧
    (∀ (pre : List TokenRelationship) (e : MirrorError)
       (rest : List (Except MirrorError TokenRelationship)),
       contractInfoQueryExecute (.ok info)
           (.ok (some (pre.map Except.ok ++ .error e :: rest))) =
         ({ info with tokenRelationships := pre }, some e)) := by
  constructor
  · intro e
    rfl
  · intro pre e rest
    simp only [contractInfoQueryExecute, fetchContractInfoTokenRelationships]
    simp [appendDecodedTokens_ok_err]

/-- Claim C7: a successful sidecar response whose token list is absent or
empty enriches the answer with the empty supplemental collection and no
error. -/
theorem empty_token_list_not_error (info : ContractInfo) :
    contractInfoQueryExecute (.ok info) (.ok none) =
      ({ info with tokenRelationships := [] }, none) ∧
    contractInfoQueryExecute (.ok info) (.ok (some [])) =
      ({ info with tokenRelationships := [] }, none) :=
  ⟨rfl, rfl⟩

/-- Counterexample to claim C8 as stated: HTTP status 300 is not in the
2xx range, yet `makeGetRequest` does not return a transport error — it
proceeds to the decoded body. -/
theorem non2xx_status_counterexample :
    makeGetRequest none 300 (.ok (some [])) = .ok (some []) ∧
    ¬(200 ≤ 300 ∧ 300 ≤ 299) :=
  ⟨rfl, by decide⟩

/-- Claim C8 (amended): a sidecar HTTP response with status code at least
400 yields a transport error and no decoded result; any status below 400,
including 3xx, proceeds to JSON decoding. -/
theorem non2xx_status_transport_error (status : Nat)
    (decoded : Except MirrorError ResponseMap) :
    (400 ≤ status → makeGetRequest none status decoded = .error (.httpStatus status)) ∧
    (status < 400 → makeGetRequest none status decoded = decoded) := by
  constructor <;> intro h
  · simp [makeGetRequest, h]
  · simp [makeGetRequest, Nat.not_le.mpr h]

/-- Witness for claim C8 (amended) at status 404: the fetch fails with the
status error. -/
theorem non2xx_status_transport_error_witness :
    400 ≤ 404 ∧
    makeGetRequest none 404 (.ok (some [])) = .error (.httpStatus 404) :=
  ⟨by decide, (non2xx_status_transport_error 404 (.ok (some []))).1 (by decide)⟩

/-- Claim C5: the sidecar base URL is `http://127.0.0.1:5551/api/v1` when
the primary mirror-network address begins with the loopback address
`127.0.0.1`, and `https://` followed by that address followed by
`/api/v1` otherwise. -/
theorem mirror_url_derivation (primary : String) :
    (stringsHasPrefix primary LOCAL_NETWORK = true →
       fetchMirrorNodeUrlFromClient primary = "http://127.0.0.1:5551/api/v1") ∧
    (stringsHasPrefix primary LOCAL_NETWORK = false →
       fetchMirrorNodeUrlFromClient primary = "https://" ++ primary ++ "/api/v1") := by
  constructor <;> intro h <;>
    simp only [fetchMirrorNodeUrlFromClient, h, if_true, if_false, Bool.false_eq_true] <;>
    rfl

/-- Witness for claim C5: a loopback address maps to the fixed local URL
and a public host maps to the https URL. -/
theorem mirror_url_derivation_witness :
    stringsHasPrefix "127.0.0.1:5600" LOCAL_NETWORK = true ∧
    fetchMirrorNodeUrlFromClient "127.0.0.1:5600" = "http://127.0.0.1:5551/api/v1" ∧
    stringsHasPrefix "testnet.mirrornode.hedera.com:443" LOCAL_NETWORK = false ∧
    fetchMirrorNodeUrlFromClient "testnet.mirrornode.hedera.com:443" =
      "https://" ++ "testnet.mirrornode.hedera.com:443" ++ "/api/v1" := by
  refine ⟨by decide, ?_, by decide, ?_⟩
  · exact (mirror_url_derivation "127.0.0.1:5600").1 (by decide)
  · exact (mirror_url_derivation "testnet.mirrornode.hedera.com:443").2 (by decide)

/-- Claim C6: a sidecar fetch against a URL containing the loopback
address sleeps for the full enrichment window (4 seconds) before issuing
the request; any other URL is fetched with zero wait. -/
theorem enrichment_wait_policy (url : String) :
    (stringsContains url LOCAL_NETWORK = true →
       makeGetRequestWaitNanos url = enrichmentWindowNanos ∧
       enrichmentWindowNanos ≤ makeGetRequestWaitNanos url) ∧
    (stringsContains url LOCAL_NETWORK = false →
       makeGetRequestWaitNanos url = 0) := by
  constructor <;> intro h <;>
    simp [makeGetRequestWaitNanos, enrichmentWindowNanos, h]

/-- Witness for claim C6: the local sidecar URL waits the full window; the
public testnet URL waits nothing. -/
theorem enrichment_wait_policy_witness :
    stringsContains "http://127.0.0.1:5551/api/v1" LOCAL_NETWORK = true ∧
    makeGetRequestWaitNanos "http://127.0.0.1:5551/api/v1" = enrichmentWindowNanos ∧
    stringsContains "https://testnet.mirrornode.hedera.com:443/api/v1" LOCAL_NETWORK = false ∧
    makeGetRequestWaitNanos "https://testnet.mirrornode.hedera.com:443/api/v1" = 0 := by
  refine ⟨by decide, ?_, by decide, ?_⟩
  · exact ((enrichment_wait_policy "http://127.0.0.1:5551/api/v1").1 (by decide)).1
  · exact (enrichment_wait_policy "https://testnet.mirrornode.hedera.com:443/api/v1").2
      (by decide)

/-- Claim C9: text-encoding round trip — a `PrivateKey` built from a
32-byte seed survives `String()` followed by `PrivateKeyFromString` with
identical key bytes, and a valid `PublicKey` survives `String()` followed
by `PublicKeyFromString` unchanged. -/
theorem key_string_roundtrip (derivePub : List Nat → List Nat) (seed : List Nat)
    (pk : PublicKey) (hs : seed.length = 32) (hb : ∀ b ∈ seed, b < 256)
    (hp : pk.keyData.length = 32) (hpb : ∀ b ∈ pk.keyData, b < 256) :
    (∀ sk, PrivateKeyFromBytes derivePub seed = .ok sk →
       PrivateKeyFromString derivePub (privateKeyString sk) = .ok sk) ∧
    PublicKeyFromString (publicKeyString pk) = .ok pk := by
  constructor
  · intro sk hsk
    have hskEq :
        sk = PrivateKey.mk (ed25519NewKeyFromSeed derivePub (seed.take 32)) none := by
      unfold PrivateKeyFromBytes at hsk
      rw [if_neg (by simp [hs])] at hsk
      exact (Except.ok.injEq _ _).mp hsk |>.symm
    have htake : seed.take 32 = seed := by
      rw [← hs]
      exact List.take_length seed
    have hstr : privateKeyString sk = ed25519PrivateKeyPrefixChars ++ hexEncode seed := by
      rw [hskEq]
      unfold privateKeyString ed25519NewKeyFromSeed
      rw [htake, List.take_left' hs]
    rw [hstr]
    unfold PrivateKeyFromString
    rw [if_neg (by
      simp [List.length_append, hexEncode_length, hs, privPrefixChars_length])]
    rw [strToLower_append, strToLower_privPrefixChars,
      show strToLower (hexEncode seed) = hexEncode seed from map_toLowerChar_hexEncode seed hb,
      trimPrefixOf_append, hexDecode_hexEncode seed hb]
    exact hsk
  · have hstr : publicKeyString pk = ed25519PubKeyPrefixChars ++ hexEncode pk.keyData := rfl
    rw [hstr]
    unfold PublicKeyFromString
    rw [if_neg (by
      simp [List.length_append, hexEncode_length, hp, pubPrefixChars_length])]
    rw [strToLower_append, strToLower_pubPrefixChars,
      show strToLower (hexEncode pk.keyData) = hexEncode pk.keyData from
        map_toLowerChar_hexEncode pk.keyData hpb,
      trimPrefixOf_append, hexDecode_hexEncode pk.keyData hpb]

/-- Witness for claim C9 at a concrete 32-byte seed and public key, with a
constant stand-in for the ed25519 public-key derivation. -/
theorem key_string_roundtrip_witness :
    (List.replicate 32 7).length = 32 ∧
    (List.replicate 32 9).length = 32 ∧
    PublicKeyFromString (publicKeyString ⟨List.replicate 32 9⟩) =
      .ok ⟨List.replicate 32 9⟩ :=
  ⟨by decide, by decide,
    (key_string_roundtrip (fun _ => List.replicate 32 0) (List.replicate 32 7)
      ⟨List.replicate 32 9⟩ (by decide) (by decide) (by decide) (by decide)).2⟩

end HederaSdk
